import Mathlib

/-!
Verification of the image-classification / object-detection demo.

The development shallowly embeds the post-processing and loop-control logic
of the repository:

* `processOutput` — the YOLO detection postprocessor of `RealTimeDetector`
  (confidence filtering, center→corner box conversion, non-max suppression);
* `topK` — the classification postprocessor of the MobileNet `App.predict`;
* `rafLoopTicks` / `intervalLoopTicks` — the two tick-scheduling styles
  (`requestAnimationFrame` chaining vs `setInterval`);
* `runEvents` / `tickEvents` — the tensor alloc/dispose trace of
  `executeInference`;
* `runDetectionLoopTick` / `detectObjectsTick` — the per-tick readiness guards.

Numbers are modelled as rationals; JavaScript arrays as Lean lists.
-/

namespace ImgClass

/-- Corner-form bounding box as pushed by `processOutput`:
`[x, y, width, height]`. -/
structure Box where
  x : ℚ
  y : ℚ
  w : ℚ
  h : ℚ
deriving DecidableEq, Repr

/-- One YOLO proposal row after transposition: `[centerX, centerY, width,
height, classScore_0..N]` (`proposal.slice(0, 4)` and `proposal.slice(4)`). -/
structure Proposal where
  xCenter : ℚ
  yCenter : ℚ
  width : ℚ
  height : ℚ
  classScores : List ℚ
deriving DecidableEq, Repr

/-- The source constant `const confidenceThreshold = 0.5`. -/
def confidenceThreshold : ℚ := 1/2

/-- The IoU threshold passed to non-max suppression, `0.45`. -/
def iouThreshold : ℚ := 45/100

/-- The max-output-size argument passed to non-max suppression, `20`. -/
def maxOutputBoxes : Nat := 20

/-- The max-score scan of `processOutput`:
`let maxScore = -1; let classId = -1;`
`classScores.forEach((score, i) => { if (score > maxScore) { ... } })`. -/
def bestClass (classScores : List ℚ) : ℚ × Int :=
  classScores.enum.foldl
    (fun acc p => if p.2 > acc.1 then (p.2, (p.1 : Int)) else acc)
    (-1, -1)

/-- A kept entry of the parallel arrays `boxes` / `scores` / `classes`. -/
abbrev Entry := Box × ℚ × Int

/-- The body of the `proposals.forEach` loop of `processOutput`: accept the
proposal iff `maxScore > confidenceThreshold`, pushing the corner-form box
scaled by the width/height ratios together with the score and class id. -/
def acceptProposal (widthRatio heightRatio : ℚ) (p : Proposal) : Option Entry :=
  let m := bestClass p.classScores
  if m.1 > confidenceThreshold then
    some (⟨(p.xCenter - p.width / 2) * widthRatio,
           (p.yCenter - p.height / 2) * heightRatio,
           p.width * widthRatio,
           p.height * heightRatio⟩, m.1, m.2)
  else
    none

/-- The filtering pass of `processOutput` producing the parallel arrays
(kept here as a single list of entries, in push order). -/
def filterProposals (widthRatio heightRatio : ℚ) (ps : List Proposal) :
    List Entry :=
  ps.filterMap (acceptProposal widthRatio heightRatio)

/-- Length of the overlap of the intervals `[a₁, a₁+w₁]` and `[a₂, a₂+w₂]`. -/
def interLen (a₁ w₁ a₂ w₂ : ℚ) : ℚ :=
  max 0 (min (a₁ + w₁) (a₂ + w₂) - max a₁ a₂)

/-- Area of the intersection of two corner-form boxes. -/
def intersectionArea (a b : Box) : ℚ :=
  interLen a.x a.w b.x b.w * interLen a.y a.h b.y b.h

/-- Area of the union of two corner-form boxes. -/
def unionArea (a b : Box) : ℚ :=
  a.w * a.h + b.w * b.h - intersectionArea a b

/-- Intersection-over-union of two corner-form boxes (glossary: "area of
intersection divided by area of union"); 0 when the union is degenerate. -/
def iou (a b : Box) : ℚ :=
  if unionArea a b = 0 then 0 else intersectionArea a b / unionArea a b

/-- Score-descending comparison on entries, the order non-max suppression
sorts surviving boxes by. -/
def scoreDesc (a b : Entry) : Prop := b.2.1 ≤ a.2.1

instance : DecidableRel scoreDesc :=
  fun a b => inferInstanceAs (Decidable (b.2.1 ≤ a.2.1))

instance : IsTotal Entry scoreDesc :=
  ⟨fun a b => le_total b.2.1 a.2.1⟩

instance : IsTrans Entry scoreDesc :=
  ⟨fun _ _ _ h₁ h₂ => le_trans h₂ h₁⟩

/-- Modelled from the spec: the greedy selection loop of
`tf.image.nonMaxSuppressionAsync` (external library code, not part of this
repository) — "iteratively keep the highest-scoring box and discard any
remaining box whose overlap (intersection-over-union) with it exceeds a
threshold"; the fuel argument realises the cap on total kept boxes. -/
def nmsKeep (iouThr : ℚ) : Nat → List Entry → List Entry
  | 0, _ => []
  | _, [] => []
  | fuel + 1, e :: rest =>
      e :: nmsKeep iouThr fuel (rest.filter fun c => decide (iou e.1 c.1 ≤ iouThr))

/-- Modelled from the spec: `tf.image.nonMaxSuppressionAsync(boxes, scores,
20, 0.45)` — "sort surviving boxes by score descending; iteratively keep the
highest-scoring box and discard any remaining box whose overlap
(intersection-over-union) with it exceeds a threshold (0.45); cap total kept
boxes (20)". The entries are returned (via `tf.gather` on the selected
indices) with box, score and class id kept in correspondence. -/
def nonMaxSuppression (maxOut : Nat) (iouThr : ℚ) (entries : List Entry) :
    List Entry :=
  nmsKeep iouThr maxOut (entries.insertionSort scoreDesc)

/-- The entries surviving non-max suppression, i.e. the `tf.gather` of the
parallel arrays along the indices returned by
`tf.image.nonMaxSuppressionAsync`. -/
def keptEntries (widthRatio heightRatio : ℚ) (proposals : List Proposal) :
    List Entry :=
  nonMaxSuppression maxOutputBoxes iouThreshold
    (filterProposals widthRatio heightRatio proposals)

/-- The function `processOutput` of `RealTimeDetector`: confidence filtering, the
early return `if (boxes.length === 0) return [[], [], []]`, then non-max
suppression, returning the parallel arrays `[finalBoxes, finalScores,
finalClasses]`. -/
def processOutput (widthRatio heightRatio : ℚ) (proposals : List Proposal) :
    List Box × List ℚ × List Int :=
  if (filterProposals widthRatio heightRatio proposals).isEmpty then
    ([], [], [])
  else
    ((keptEntries widthRatio heightRatio proposals).map (fun e => e.1),
     (keptEntries widthRatio heightRatio proposals).map (fun e => e.2.1),
     (keptEntries widthRatio heightRatio proposals).map (fun e => e.2.2))

/-! ### Classification postprocessor (`App.predict`) -/

/-- A ranked classification result: `{ className: string, probability }`. -/
structure Prediction where
  className : String
  probability : ℚ
deriving DecidableEq, Repr

/-- The JavaScript comparator `(a, b) => b.probability - a.probability`,
which orders predictions by descending probability. -/
def probDesc (a b : Prediction) : Prop := b.probability ≤ a.probability

instance : DecidableRel probDesc :=
  fun a b => inferInstanceAs (Decidable (b.probability ≤ a.probability))

instance : IsTotal Prediction probDesc :=
  ⟨fun a b => le_total b.probability a.probability⟩

instance : IsTrans Prediction probDesc :=
  ⟨fun _ _ _ h₁ h₂ => le_trans h₂ h₁⟩

/-- The label table lookup `IMAGENET_CLASSES[i] || [fallback]`, modelled as a
total function from indices to class names. -/
abbrev Labels := Nat → String

/-- The pairing step of `predict`:
`Array.from(probabilities).map((p, i) => ({ probability: p, className: ... }))`. -/
def pairWithLabels (labels : Labels) (probs : List ℚ) : List Prediction :=
  probs.enum.map fun pi => ⟨labels pi.1, pi.2⟩

/-- The top-K selection of `predict`: pair each probability with its class
label, `.sort((a, b) => b.probability - a.probability)`, `.slice(0, 3)`. -/
def topK (labels : Labels) (probs : List ℚ) : List Prediction :=
  ((pairWithLabels labels probs).insertionSort probDesc).take 3

/-! ### Loop scheduling (`startLoop` vs `setInterval`) -/

/-- Whether `runDetectionLoop` (respectively `detectObjects`) resolves
normally or rejects (the inference call throws) on a given tick. -/
inductive TickOutcome
  | ok
  | err
deriving DecidableEq, Repr

/-- The `requestAnimationFrame` chain of `RealTimeDetector.startLoop`:
`const loop = async () => { await runDetectionLoop(); animationFrameId =
requestAnimationFrame(loop); }`. A tick that rejects never reaches the
`requestAnimationFrame(loop)` call, so no further tick runs. Given the
outcomes the successive ticks would have, this counts how many ticks
actually execute. -/
def rafLoopTicks : List TickOutcome → Nat
  | [] => 0
  | TickOutcome.ok :: rest => 1 + rafLoopTicks rest
  | TickOutcome.err :: _ => 1

/-- The `setInterval(() => { detectObjects(); }, 100)` loop of `App`: each
scheduled tick fires independently of the previous tick's outcome, so every
scheduled tick executes. -/
def intervalLoopTicks (ticks : List TickOutcome) : Nat := ticks.length

/-! ### Tensor lifecycle of `executeInference` -/

/-- A tensor-registry event: creation of a tensor or an explicit
`dispose`. -/
inductive TensorEvent
  | alloc (name : String)
  | dispose (name : String)
deriving DecidableEq, Repr

/-- The tf.js tensor registry, abstracted to the multiset (here: list) of
live tensor names: an allocation registers a tensor, `dispose` removes it. -/
def applyEvent (live : List String) : TensorEvent → List String
  | TensorEvent.alloc n => n :: live
  | TensorEvent.dispose n => live.erase n

def runEvents (live : List String) (events : List TensorEvent) : List String :=
  events.foldl applyEvent live

/-- The tensor allocations and disposals performed by `executeInference`
(`loadModel.ts`), line by line:
* `model.execute(inputTensor, SPLIT_LAYER_NAME)` → `middleTensor`;
* `middleTensor.abs()` → anonymous intermediate `middleTensorAbs`;
* `.max()` → `maxAbs`;
* `maxAbs.div(127.0)` → `scale`;
* `middleTensor.div(scale)` → anonymous intermediate `middleTensorDivScale`;
* `.round()` → `quantizedTensor`;
* `await middleTensor.data()`, `new Int8Array`, `new Float32Array` —
  no tensor allocation;
* `tf.tensor(dequantizedData, middleTensor.shape)` → anonymous intermediate
  `dequantizedRaw`;
* `.mul(scale)` → `dequantizedTensor`;
* `tf.zeros(model.inputs[0].shape)` → `dummyInput`;
* `model.execute({...})` → `predictions`;
* `tf.dispose([inputTensor, middleTensor, maxAbs, scale, quantizedTensor,
  dequantizedTensor, dummyInput])`. -/
def executeInferenceEvents : List TensorEvent :=
  [TensorEvent.alloc "middleTensor",
   TensorEvent.alloc "middleTensorAbs",
   TensorEvent.alloc "maxAbs",
   TensorEvent.alloc "scale",
   TensorEvent.alloc "middleTensorDivScale",
   TensorEvent.alloc "quantizedTensor",
   TensorEvent.alloc "dequantizedRaw",
   TensorEvent.alloc "dequantizedTensor",
   TensorEvent.alloc "dummyInput",
   TensorEvent.alloc "predictions",
   TensorEvent.dispose "inputTensor",
   TensorEvent.dispose "middleTensor",
   TensorEvent.dispose "maxAbs",
   TensorEvent.dispose "scale",
   TensorEvent.dispose "quantizedTensor",
   TensorEvent.dispose "dequantizedTensor",
   TensorEvent.dispose "dummyInput"]

/-- One full tick as seen by the tensor registry: the caller allocates the
input tensor, `executeInference` runs, and the caller finally disposes the
returned `predictions` tensor. -/
def tickEvents : List TensorEvent :=
  TensorEvent.alloc "inputTensor" ::
    (executeInferenceEvents ++ [TensorEvent.dispose "predictions"])

/-- Runs `n` consecutive ticks on a registry state. -/
def runTicks : Nat → List String → List String
  | 0, live => live
  | n + 1, live => runTicks n (runEvents live tickEvents)

/-! ### Per-tick readiness guards -/

/-- The observable work of one tick. -/
inductive TickEffect
  | preprocess
  | inference
  | render
deriving DecidableEq, Repr

/-- One tick of `runDetectionLoop(model, video, canvas)`: skip when
`video.readyState < 3` or `canvas.getContext('2d')` is null, otherwise run
preprocess → inference → render, replacing the canvas overlay with the new
detections. The canvas overlay is modelled by the list of boxes currently
drawn; `detections` is the result the tick would draw when it runs. -/
def runDetectionLoopTick (readyState : Nat) (ctxAvailable : Bool)
    (detections : List Box) (canvas : List Box) :
    List TickEffect × List Box :=
  if readyState < 3 then ([], canvas)
  else if ctxAvailable = false then ([], canvas)
  else ([TickEffect.preprocess, TickEffect.inference, TickEffect.render],
        detections)

/-- One tick of `App.detectObjects`: run only when
`model && videoRef.current && videoRef.current.readyState === 4`; otherwise
nothing happens and the canvas overlay is untouched. -/
def detectObjectsTick (modelReady : Bool) (readyState : Nat)
    (detections : List Box) (canvas : List Box) :
    List TickEffect × List Box :=
  if modelReady = true ∧ readyState = 4 then
    ([TickEffect.inference, TickEffect.render], detections)
  else ([], canvas)

/-! ### Sample inputs used by the witnesses -/

/-- Sample proposals: two confident, well-separated proposals and one below
the confidence threshold. -/
def demoProposals : List Proposal :=
  [⟨5, 5, 10, 10, [9/10]⟩, ⟨105, 105, 10, 10, [8/10]⟩, ⟨50, 50, 10, 10, [1/4]⟩]

/-- A proposal whose best class score is below the confidence threshold. -/
def lowProposal : Proposal := ⟨50, 50, 10, 10, [1/4]⟩

/-- A sample label table. -/
def demoLabels : Labels :=
  fun i => if i = 0 then "cat" else if i = 1 then "dog" else "bird"

/-- Sample class probabilities. -/
def demoProbs : List ℚ := [1/10, 9/10, 3/10]

/-! ### Helper lemmas about the detection postprocessor -/

theorem interLen_comm (a₁ w₁ a₂ w₂ : ℚ) :
    interLen a₁ w₁ a₂ w₂ = interLen a₂ w₂ a₁ w₁ := by
  rw [interLen, interLen, min_comm (a₁ + w₁), max_comm a₁]

theorem intersectionArea_comm (a b : Box) :
    intersectionArea a b = intersectionArea b a := by
  rw [intersectionArea, intersectionArea, interLen_comm,
    interLen_comm a.y a.h b.y b.h]

theorem unionArea_comm (a b : Box) : unionArea a b = unionArea b a := by
  rw [unionArea, unionArea, intersectionArea_comm]
  ring

theorem iou_comm (a b : Box) : iou a b = iou b a := by
  rw [iou, iou, unionArea_comm, intersectionArea_comm]

theorem nmsKeep_subset (iouThr : ℚ) :
    ∀ (fuel : Nat) (l : List Entry), ∀ e ∈ nmsKeep iouThr fuel l, e ∈ l
  | 0, _ => by simp [nmsKeep]
  | _ + 1, [] => by simp [nmsKeep]
  | fuel + 1, a :: rest => by
    intro e he
    rw [nmsKeep] at he
    rcases List.mem_cons.1 he with h | h
    · exact h ▸ List.mem_cons_self a rest
    · exact List.mem_cons_of_mem a
        (List.mem_of_mem_filter (nmsKeep_subset iouThr fuel _ e h))

theorem nmsKeep_pairwise (iouThr : ℚ) :
    ∀ (fuel : Nat) (l : List Entry),
      (nmsKeep iouThr fuel l).Pairwise fun a b => iou a.1 b.1 ≤ iouThr
  | 0, _ => by simp [nmsKeep]
  | _ + 1, [] => by simp [nmsKeep]
  | fuel + 1, a :: rest => by
    rw [nmsKeep]
    refine List.Pairwise.cons (fun e he => ?_) (nmsKeep_pairwise iouThr fuel _)
    have hmem := nmsKeep_subset iouThr fuel _ e he
    have := List.of_mem_filter hmem
    exact of_decide_eq_true this

theorem nmsKeep_length (iouThr : ℚ) :
    ∀ (fuel : Nat) (l : List Entry), (nmsKeep iouThr fuel l).length ≤ fuel
  | 0, _ => by simp [nmsKeep]
  | _ + 1, [] => by simp [nmsKeep]
  | fuel + 1, a :: rest => by
    rw [nmsKeep]
    simpa using nmsKeep_length iouThr fuel _

theorem mem_keptEntries (widthRatio heightRatio : ℚ) (proposals : List Proposal)
    (e : Entry) (he : e ∈ keptEntries widthRatio heightRatio proposals) :
    e ∈ filterProposals widthRatio heightRatio proposals := by
  rw [keptEntries, nonMaxSuppression] at he
  exact (List.mem_insertionSort scoreDesc).1
    (nmsKeep_subset iouThreshold maxOutputBoxes _ e he)

theorem processOutput_boxes_pairwise (widthRatio heightRatio : ℚ)
    (proposals : List Proposal) :
    (processOutput widthRatio heightRatio proposals).1.Pairwise
      fun a b => iou a b ≤ iouThreshold := by
  rw [processOutput]
  split
  · simp
  · rw [keptEntries, nonMaxSuppression]
    exact (List.pairwise_map).2
      (nmsKeep_pairwise iouThreshold maxOutputBoxes _)

/-- Every kept entry arises from a proposal that passed the confidence test. -/
theorem mem_filterProposals_score (widthRatio heightRatio : ℚ)
    (ps : List Proposal) (e : Entry)
    (he : e ∈ filterProposals widthRatio heightRatio ps) :
    confidenceThreshold < e.2.1 := by
  rw [filterProposals, List.mem_filterMap] at he
  obtain ⟨p, -, hp⟩ := he
  rw [acceptProposal] at hp
  split at hp
  · cases hp
    assumption
  · cases hp

/-! ### Helper lemmas about the classification postprocessor, the loop
models and the tensor registry -/

theorem topK_mem_pairWithLabels (labels : Labels) (probs : List ℚ)
    (q : Prediction) (hq : q ∈ topK labels probs) :
    q ∈ pairWithLabels labels probs :=
  (List.mem_insertionSort probDesc).1 (List.mem_of_mem_take hq)

/-- The net effect of one tick on the tensor registry: the three anonymous
intermediates of `executeInference` are never disposed and stay live. -/
theorem runEvents_tick (live : List String) :
    runEvents live tickEvents =
      "dequantizedRaw" :: "middleTensorDivScale" :: "middleTensorAbs" :: live :=
  rfl

theorem runTicks_length (n : Nat) (live : List String) :
    (runTicks n live).length = live.length + 3 * n := by
  induction n generalizing live with
  | zero => simp [runTicks]
  | succ n ih =>
      simp only [runTicks, runEvents_tick, ih, List.length_cons]
      omega

/-! ### The claims -/

/-- C1: for every proposal list given to `processOutput`, after non-max
suppression no two boxes in the kept output have intersection-over-union
greater than the configured IoU threshold 0.45. -/
theorem processOutput_iou_le_threshold (widthRatio heightRatio : ℚ)
    (proposals : List Proposal) (i j : Nat)
    (hi : i < (processOutput widthRatio heightRatio proposals).1.length)
    (hj : j < (processOutput widthRatio heightRatio proposals).1.length)
    (hij : i ≠ j) :
    iou (processOutput widthRatio heightRatio proposals).1[i]
        (processOutput widthRatio heightRatio proposals).1[j] ≤ iouThreshold := by
  have hp := processOutput_boxes_pairwise widthRatio heightRatio proposals
  rw [List.pairwise_iff_getElem] at hp
  rcases Nat.lt_or_ge i j with h | h
  · exact hp i j hi hj h
  · have hji : j < i := lt_of_le_of_ne h (Ne.symm hij)
    rw [iou_comm]
    exact hp j i hj hi hji

/-- C1 witness: on the sample proposals the output keeps two boxes, and
their IoU is below the threshold. -/
theorem processOutput_iou_le_threshold_witness :
    iou ((processOutput 1 1 demoProposals).1.get ⟨0, by with_unfolding_all decide⟩)
        ((processOutput 1 1 demoProposals).1.get ⟨1, by with_unfolding_all decide⟩) ≤
      iouThreshold :=
  processOutput_iou_le_threshold 1 1 demoProposals 0 1
    (by with_unfolding_all decide) (by with_unfolding_all decide) (by decide)

/-- C2: every detection kept by `processOutput` has confidence at least the
threshold 0.5, and every proposal whose maximum class score is below 0.5 is
rejected by the confidence filter. -/
theorem processOutput_confidence (widthRatio heightRatio : ℚ)
    (proposals : List Proposal) :
    (∀ s ∈ (processOutput widthRatio heightRatio proposals).2.1,
        confidenceThreshold ≤ s) ∧
    (∀ p ∈ proposals, (bestClass p.classScores).1 < confidenceThreshold →
        acceptProposal widthRatio heightRatio p = none) := by
  constructor
  · intro s hs
    rw [processOutput] at hs
    split at hs
    · simp at hs
    · simp only [List.mem_map] at hs
      obtain ⟨e, he, rfl⟩ := hs
      exact le_of_lt (mem_filterProposals_score widthRatio heightRatio proposals e
        (mem_keptEntries widthRatio heightRatio proposals e he))
  · intro p _ hlow
    simp only [acceptProposal]
    exact if_neg (not_lt.2 hlow.le)

/-- C2 witness: the sample run keeps the score 9/10, which is above the
threshold, and the below-threshold sample proposal is rejected. -/
theorem processOutput_confidence_witness :
    confidenceThreshold ≤ 9/10 ∧ acceptProposal 1 1 lowProposal = none :=
  ⟨(processOutput_confidence 1 1 demoProposals).1 (9/10)
      (by with_unfolding_all decide),
   (processOutput_confidence 1 1 demoProposals).2 lowProposal
      (by with_unfolding_all decide) (by with_unfolding_all decide)⟩

/-- C3: for every proposal list, the number of detections kept by
`processOutput` after suppression is at most the configured cap of 20. -/
theorem processOutput_cap (widthRatio heightRatio : ℚ)
    (proposals : List Proposal) :
    (processOutput widthRatio heightRatio proposals).1.length ≤ 20 := by
  rw [processOutput]
  split
  · simp
  · simpa [keptEntries, nonMaxSuppression, maxOutputBoxes] using
      nmsKeep_length iouThreshold maxOutputBoxes
        ((filterProposals widthRatio heightRatio proposals).insertionSort scoreDesc)

/-- C4: every accepted proposal with center `(cx, cy)`, size `(w, h)` and
scale ratios `(rw, rh)` is emitted as the corner-form box
`((cx - w/2)*rw, (cy - h/2)*rh, w*rw, h*rh)`; in particular the proposal
with center (100, 100), width 50, height 50 and ratios (1, 1) yields the
box (75, 75, 50, 50). -/
theorem acceptProposal_corner_form (widthRatio heightRatio : ℚ) (p : Proposal)
    (h : confidenceThreshold < (bestClass p.classScores).1) :
    acceptProposal widthRatio heightRatio p =
      some (⟨(p.xCenter - p.width / 2) * widthRatio,
             (p.yCenter - p.height / 2) * heightRatio,
             p.width * widthRatio, p.height * heightRatio⟩,
            (bestClass p.classScores).1, (bestClass p.classScores).2) ∧
    processOutput 1 1 [⟨100, 100, 50, 50, [9/10]⟩] =
      ([⟨75, 75, 50, 50⟩], [9/10], [0]) := by
  refine ⟨?_, by with_unfolding_all decide⟩
  simp only [acceptProposal]
  exact if_pos h

/-- C4 witness: the concrete proposal of the claim is accepted, and the
emitted box is (75, 75, 50, 50). -/
theorem acceptProposal_corner_form_witness :
    acceptProposal 1 1 ⟨100, 100, 50, 50, [9/10]⟩ =
      some (⟨75, 75, 50, 50⟩, 9/10, 0) ∧
    processOutput 1 1 [⟨100, 100, 50, 50, [9/10]⟩] =
      ([⟨75, 75, 50, 50⟩], [9/10], [0]) :=
  ⟨(acceptProposal_corner_form 1 1 ⟨100, 100, 50, 50, [9/10]⟩
      (by with_unfolding_all decide)).1.trans (by with_unfolding_all decide),
   (acceptProposal_corner_form 1 1 ⟨100, 100, 50, 50, [9/10]⟩
      (by with_unfolding_all decide)).2⟩

/-- C5: for every probability vector, every output of the classification
postprocessor is one of the probability/label pairs, and the output list is
sorted descending by probability and has length at most 3. -/
theorem topK_spec (labels : Labels) (probs : List ℚ) :
    (∀ q ∈ topK labels probs, q ∈ pairWithLabels labels probs) ∧
    (topK labels probs).Sorted probDesc ∧
    (topK labels probs).length ≤ 3 := by
  refine ⟨fun q hq => topK_mem_pairWithLabels labels probs q hq, ?_, ?_⟩
  · exact List.Pairwise.sublist (List.take_sublist 3 _)
      (List.sorted_insertionSort probDesc _)
  · simp only [topK, List.length_take]
    exact min_le_left _ _

/-- C5 witness: on the sample probabilities the pair (dog, 9/10) is kept and
comes from the pairing step; the output is sorted and within the cap. -/
theorem topK_spec_witness :
    ((⟨"dog", 9/10⟩ : Prediction) ∈ pairWithLabels demoLabels demoProbs) ∧
    (topK demoLabels demoProbs).Sorted probDesc ∧
    (topK demoLabels demoProbs).length ≤ 3 :=
  ⟨(topK_spec demoLabels demoProbs).1 ⟨"dog", 9/10⟩ (by with_unfolding_all decide),
   (topK_spec demoLabels demoProbs).2.1,
   (topK_spec demoLabels demoProbs).2.2⟩

/-- C7 counterexample: two ticks are scheduled and the first one's inference
throws. In the `requestAnimationFrame` loop of `startLoop` only that first
tick executes — `requestAnimationFrame(loop)` is never reached, so the loop
does not continue with the next scheduled tick (while the `setInterval` loop
would run both). -/
theorem rafLoop_halts_on_error_counterexample :
    rafLoopTicks [TickOutcome.err, TickOutcome.ok] = 1 ∧
    rafLoopTicks [TickOutcome.err, TickOutcome.ok] ≠
      intervalLoopTicks [TickOutcome.err, TickOutcome.ok] :=
  ⟨rfl, by decide⟩

/-- C7 (amended): in the `setInterval` loop of `App`, a thrown inference
error aborts only its own tick and every following scheduled tick still
executes; in the `requestAnimationFrame` loop of `RealTimeDetector`, a
thrown inference error stops the loop — exactly the error-free ticks before
the error plus the erroring tick execute, and no later tick runs. -/
theorem loop_error_behaviour (pre post : List TickOutcome)
    (hpre : ∀ t ∈ pre, t = TickOutcome.ok) :
    rafLoopTicks (pre ++ TickOutcome.err :: post) = pre.length + 1 ∧
    intervalLoopTicks (pre ++ TickOutcome.err :: post) =
      pre.length + 1 + post.length := by
  constructor
  · induction pre with
    | nil => simp [rafLoopTicks]
    | cons t rest ih =>
        have ht := hpre t (List.mem_cons_self t rest)
        subst ht
        rw [List.cons_append, rafLoopTicks,
          ih fun x hx => hpre x (List.mem_cons_of_mem _ hx)]
        simp only [List.length_cons]
        omega
  · simp only [intervalLoopTicks, List.length_append, List.length_cons]
    omega

/-- C7 witness: with one successful tick, then an error, then one more
scheduled tick, the rAF loop executes 2 ticks while the interval loop
executes all 3. -/
theorem loop_error_behaviour_witness :
    rafLoopTicks [TickOutcome.ok, TickOutcome.err, TickOutcome.ok] = 2 ∧
    intervalLoopTicks [TickOutcome.ok, TickOutcome.err, TickOutcome.ok] = 3 :=
  loop_error_behaviour [TickOutcome.ok] [TickOutcome.ok] (by decide)

/-- C8: refuted — `executeInference` never disposes the anonymous
intermediates `middleTensor.abs()`, `middleTensor.div(scale)` and
`tf.tensor(dequantizedData, middleTensor.shape)`; after one tick the
registry holds three tensors above the empty baseline, and after `n` ticks
it holds `3 * n`, so the allocation count does not return to baseline. -/
theorem executeInference_leaks :
    runTicks 1 [] =
      ["dequantizedRaw", "middleTensorDivScale", "middleTensorAbs"] ∧
    ∀ n : Nat, (runTicks n []).length = 3 * n := by
  refine ⟨rfl, fun n => ?_⟩
  simpa using runTicks_length n []

/-- C9: if the video frame is not yet decodable (`readyState < 3`, resp.
`readyState !== 4`) or the 2d context/model is unavailable, the tick is a
silent no-op: no preprocessing, inference, or rendering happens and the
canvas overlay is left unchanged. -/
theorem tick_skip (readyState : Nat) (ctxAvailable modelReady : Bool)
    (detections canvas : List Box) :
    (readyState < 3 →
      runDetectionLoopTick readyState ctxAvailable detections canvas =
        ([], canvas)) ∧
    (¬(modelReady = true ∧ readyState = 4) →
      detectObjectsTick modelReady readyState detections canvas =
        ([], canvas)) := by
  constructor
  · intro h
    rw [runDetectionLoopTick, if_pos h]
  · intro h
    rw [detectObjectsTick, if_neg h]

/-- C9 witness: a tick with an undecodable frame, and a tick with the model
not ready, both leave no effects and an unchanged canvas. -/
theorem tick_skip_witness :
    runDetectionLoopTick 0 true [⟨0, 0, 1, 1⟩] [] = ([], []) ∧
    detectObjectsTick false 4 [⟨0, 0, 1, 1⟩] [] = ([], []) :=
  ⟨(tick_skip 0 true false [⟨0, 0, 1, 1⟩] []).1 (by decide),
   (tick_skip 4 true false [⟨0, 0, 1, 1⟩] []).2 (by simp)⟩

/-- C10: if no proposal's maximum class score exceeds the 0.5 confidence
threshold, `processOutput` takes the early return and yields three empty
arrays without reaching non-max suppression; and in every case the three
returned arrays have equal length. -/
theorem processOutput_empty_parallel (widthRatio heightRatio : ℚ)
    (proposals : List Proposal) :
    ((∀ p ∈ proposals,
        ¬ confidenceThreshold < (bestClass p.classScores).1) →
      processOutput widthRatio heightRatio proposals = ([], [], [])) ∧
    ((processOutput widthRatio heightRatio proposals).1.length =
        (processOutput widthRatio heightRatio proposals).2.1.length ∧
      (processOutput widthRatio heightRatio proposals).2.1.length =
        (processOutput widthRatio heightRatio proposals).2.2.length) := by
  constructor
  · intro hall
    have hempty : filterProposals widthRatio heightRatio proposals = [] := by
      rw [filterProposals, List.filterMap_eq_nil_iff]
      intro p hp
      simp only [acceptProposal]
      exact if_neg (hall p hp)
    rw [processOutput, hempty]
    rfl
  · rw [processOutput]
    split
    · simp
    · simp

/-- C10 witness: on a single below-threshold proposal the output is three
empty arrays, and the parallel arrays have equal length. -/
theorem processOutput_empty_parallel_witness :
    processOutput 1 1 [lowProposal] = ([], [], []) ∧
    ((processOutput 1 1 [lowProposal]).1.length =
        (processOutput 1 1 [lowProposal]).2.1.length ∧
      (processOutput 1 1 [lowProposal]).2.1.length =
        (processOutput 1 1 [lowProposal]).2.2.length) :=
  ⟨(processOutput_empty_parallel 1 1 [lowProposal]).1
      (by with_unfolding_all decide),
   (processOutput_empty_parallel 1 1 [lowProposal]).2⟩

end ImgClass
